import Mathlib

/-!
Verification of the Calypso structure-inference and fidelity-validation core.

The definitions below are shallow embeddings of the Python sources:
  - `Calypso/tools/detailed_page_diff.py` (tokenisation, coverage, verdicts,
    missing/extra word sets, content/formatting split),
  - `Calypso/tools/verify_text_content.py` (the same coverage formula),
  - `Calypso/tools/verify_deduplication.py` (duplicate block detection and the
    chapter-level decision),
  - `Calypso/tools/validation_state_manager.py` (retry state machine),
  - `Calypso/tools/semantic_html_generator.py` (span grouping / classification),
  - `generate_chapter_html.py` (font-size distribution analysis).

File and network I/O, argument parsing and printing are not modelled; the pure
computations they wrap are.
-/

namespace Calypso

/-! ### Whitespace tokenisation (Python `str.split()`) -/

/-- Helper for `pyTokens`: walks the character list, `acc` holds the (reversed)
characters of the word currently being read. Mirrors Python `str.split()`:
whitespace runs separate words, empty words are dropped. -/
def wordsAux : List Char → List Char → List String
  | [], acc => if acc.isEmpty then [] else [String.mk acc.reverse]
  | c :: cs, acc =>
    if c.isWhitespace then
      if acc.isEmpty then wordsAux cs []
      else String.mk acc.reverse :: wordsAux cs []
    else wordsAux cs (c :: acc)

/-- Python `s.split()`: split on whitespace runs, dropping empty pieces. -/
def pyTokens (s : String) : List String := wordsAux s.data []

/-- Python `' '.join(l)`. -/
def joinSpace : List String → String
  | [] => ""
  | [s] => s
  | s :: t :: rest => s ++ " " ++ joinSpace (t :: rest)

theorem wordsAux_append_space (a b : List Char) (acc : List Char) :
    wordsAux (a ++ ' ' :: b) acc = wordsAux a acc ++ wordsAux b [] := by
  induction a generalizing acc with
  | nil =>
    have hw : (' ').isWhitespace = true := by decide
    simp only [List.nil_append, wordsAux, hw, if_true]
    cases hacc : acc.isEmpty <;> simp [hacc, wordsAux]
  | cons c a ih =>
    simp only [List.cons_append, wordsAux]
    cases hw : c.isWhitespace
    · simp only [Bool.false_eq_true, if_false]
      exact ih (c :: acc)
    · simp only [if_true]
      cases hacc : acc.isEmpty <;> simp [hacc, ih]

theorem pyTokens_append_space (s t : String) :
    pyTokens (s ++ " " ++ t) = pyTokens s ++ pyTokens t := by
  have h : (s ++ " " ++ t).data = s.data ++ ' ' :: t.data := by
    simp [String.data_append]
  simp [pyTokens, h, wordsAux_append_space]

theorem pyTokens_joinSpace (l : List String) :
    pyTokens (joinSpace l) = l.flatMap pyTokens := by
  induction l with
  | nil => rfl
  | cons s rest ih =>
    cases rest with
    | nil => simp [joinSpace, List.flatMap]
    | cons t r =>
      simp only [joinSpace, pyTokens_append_space, ih]
      simp [List.flatMap]

/-! ### Fidelity comparator (`detailed_page_diff.py`, `verify_text_content.py`) -/

/-- `detailed_page_diff.tokenize_words`: split text into words on whitespace. -/
def tokenize_words (text : String) : List String := pyTokens text

/-- `detailed_page_diff.normalize_word`: lowercase, then keep only word
characters (letters, digits, underscore) and hyphens. -/
def normalize_word (word : String) : String :=
  String.mk ((word.data.map Char.toLower).filter fun c => c.isAlphanum || c = '_' || c = '-')

/-- The coverage computation shared by `detailed_page_diff.main` and
`verify_text_content.main`:
`(html_word_count / json_word_count * 100) if json_word_count > 0 else 0`. -/
def coverage (jsonText htmlText : String) : ℚ :=
  let jc := (tokenize_words jsonText).length
  let hc := (tokenize_words htmlText).length
  if 0 < jc then (hc : ℚ) / (jc : ℚ) * 100 else 0

/-- The five outcome classes printed by `detailed_page_diff.main`. -/
inductive Verdict where
  | rejected | perfect | excellent | acceptable | failed
deriving DecidableEq

/-- The status classification of `detailed_page_diff.main` (lines 211-223):
`>100` rejected, `>=100` perfect, `>=99` excellent, `>=95` acceptable,
otherwise failed. -/
def verdict (c : ℚ) : Verdict :=
  if 100 < c then .rejected
  else if 100 ≤ c then .perfect
  else if 99 ≤ c then .excellent
  else if 95 ≤ c then .acceptable
  else .failed

/-- `detailed_page_diff.find_missing_and_extra`: word-set differences over
normalized words. -/
def find_missing_and_extra (json_words html_words : List String) :
    Finset String × Finset String :=
  let json_set := (json_words.map normalize_word).toFinset
  let html_set := (html_words.map normalize_word).toFinset
  (json_set \ html_set, html_set \ json_set)

/-- The missing-word set of a comparison, as computed in
`detailed_page_diff.main`. -/
def missing_words (jsonText htmlText : String) : Finset String :=
  (find_missing_and_extra (tokenize_words jsonText) (tokenize_words htmlText)).1

/-- The extra-word set of a comparison, as computed in
`detailed_page_diff.main`. -/
def extra_words (jsonText htmlText : String) : Finset String :=
  (find_missing_and_extra (tokenize_words jsonText) (tokenize_words htmlText)).2

/-- `detailed_page_diff.main`'s categorisation of a missing word as
formatting/punctuation: every character lies in `-•–—.` or the word has length
at most 1. -/
def is_formatting_word (word : String) : Bool :=
  word.data.all (fun c => c = '-' || c = '•' || c = '–' || c = '—' || c = '.')
    || word.length ≤ 1

/-- The "content words" among the missing words (`critical_words` in
`detailed_page_diff.main`): missing words that are not formatting. -/
def missing_content_words (jsonText htmlText : String) : Finset String :=
  (missing_words jsonText htmlText).filter fun w => ¬ is_formatting_word w

/-! ### Claims C1, C2, C3, C10: the fidelity comparator -/

/-- C1: for every reference and candidate text, coverage is the candidate's
raw token count divided by the reference's raw token count times 100, missing
is the normalized reference set minus the candidate set, extra the reverse;
and on reference "the quick brown fox jumps" versus candidate "the quick brown
fox" the comparator yields coverage 80, missing content words exactly
{"jumps"}, and verdict Failed. -/
theorem C1_coverage_missing_extra_and_example :
    (∀ refText candText : String, 0 < (tokenize_words refText).length →
      coverage refText candText =
        ((tokenize_words candText).length : ℚ) /
          ((tokenize_words refText).length : ℚ) * 100) ∧
    (∀ refText candText : String, ∀ w : String,
      (w ∈ missing_words refText candText ↔
        w ∈ ((tokenize_words refText).map normalize_word).toFinset ∧
          w ∉ ((tokenize_words candText).map normalize_word).toFinset) ∧
      (w ∈ extra_words refText candText ↔
        w ∈ ((tokenize_words candText).map normalize_word).toFinset ∧
          w ∉ ((tokenize_words refText).map normalize_word).toFinset)) ∧
    coverage "the quick brown fox jumps" "the quick brown fox" = 80 ∧
    missing_content_words "the quick brown fox jumps" "the quick brown fox"
      = {"jumps"} ∧
    verdict (coverage "the quick brown fox jumps" "the quick brown fox")
      = .failed := by
  have h1 : (tokenize_words "the quick brown fox jumps").length = 5 := by decide
  have h2 : (tokenize_words "the quick brown fox").length = 4 := by decide
  refine ⟨?_, ?_, ?_, by decide, ?_⟩
  · intro refText candText h
    simp [coverage, h]
  · intro refText candText w
    constructor <;> simp [missing_words, extra_words, find_missing_and_extra,
      Finset.mem_sdiff]
  · norm_num [coverage, h1, h2]
  · norm_num [coverage, verdict, h1, h2]

/-- Witness for C1: the general coverage formula applied at a concrete
comparison with a non-empty reference. -/
theorem C1_coverage_missing_extra_and_example_witness :
    0 < (tokenize_words "the quick brown fox jumps").length ∧
    coverage "the quick brown fox jumps" "the quick brown fox" =
      ((tokenize_words "the quick brown fox").length : ℚ) /
        ((tokenize_words "the quick brown fox jumps").length : ℚ) * 100 :=
  ⟨by decide,
    C1_coverage_missing_extra_and_example.1 "the quick brown fox jumps"
      "the quick brown fox" (by decide)⟩

/-- C2: the verdict is determined from coverage by fixed policy constants:
strictly above 100 is Rejected, exactly 100 is Perfect, [99,100) is Excellent,
[95,99) is Acceptable, below 95 is Failed. -/
theorem C2_verdict_thresholds (c : ℚ) :
    (verdict c = .rejected ↔ 100 < c) ∧
    (verdict c = .perfect ↔ c = 100) ∧
    (verdict c = .excellent ↔ 99 ≤ c ∧ c < 100) ∧
    (verdict c = .acceptable ↔ 95 ≤ c ∧ c < 99) ∧
    (verdict c = .failed ↔ c < 95) := by
  unfold verdict
  split_ifs with h1 h2 h3 h4 <;>
    (try simp only [not_lt, not_le] at h1 h2 h3 h4) <;>
    (try simp only [not_lt, not_le] at h1 h2 h3) <;>
    (try simp only [not_lt, not_le] at h1 h2) <;>
    (try simp only [not_lt, not_le] at h1) <;>
    simp only [reduceCtorEq, iff_true, iff_false, true_iff, false_iff,
      not_and, not_lt, not_le, ne_eq] <;>
    refine ⟨?_, ?_, ?_, ?_, ?_⟩ <;> intros <;>
    first
      | linarith
      | (constructor <;> linarith)

/-- C3 counterexample: with an empty reference and an empty candidate the code
returns coverage 0, not the vacuous-pass coverage 100 the claim requires. -/
theorem C3_counterexample_empty_empty :
    coverage "" "" = 0 ∧ ¬ coverage "" "" = 100 := by
  have h : coverage "" "" = 0 := by decide
  exact ⟨h, by rw [h]; norm_num⟩

/-- C3 amended: when the reference text has zero tokens the comparator never
divides and explicitly returns coverage 0, whether or not the candidate is
empty. -/
theorem C3_empty_reference_yields_zero (refText candText : String)
    (h : (tokenize_words refText).length = 0) :
    coverage refText candText = 0 := by
  simp [coverage, h]

/-- Witness for the amended C3: an empty reference against a non-empty
candidate yields coverage 0. -/
theorem C3_empty_reference_yields_zero_witness :
    (tokenize_words "").length = 0 ∧ coverage "" "some words" = 0 :=
  ⟨by decide, C3_empty_reference_yields_zero "" "some words" (by decide)⟩

/-- C10: there is a comparison whose coverage is exactly 100 (verdict Perfect)
while the missing set is non-empty: duplicated candidate tokens offset an
omitted reference token, so Perfect does not imply every reference word is
present. -/
theorem C10_perfect_coverage_with_nonempty_missing :
    coverage "alpha beta" "alpha alpha" = 100 ∧
    verdict (coverage "alpha beta" "alpha alpha") = .perfect ∧
    missing_words "alpha beta" "alpha alpha" ≠ ∅ := by
  have h1 : (tokenize_words "alpha beta").length = 2 := by decide
  have h2 : (tokenize_words "alpha alpha").length = 2 := by decide
  have hm : missing_words "alpha beta" "alpha alpha" = {"beta"} := by decide
  refine ⟨by norm_num [coverage, h1, h2], by norm_num [coverage, verdict, h1, h2], ?_⟩
  rw [hm]
  decide

/-! ### Duplication detector (`verify_deduplication.py`) -/

/-- A semantic content block as extracted by `ContentExtractor`
(`verify_deduplication.py`): a type tag and its accumulated text. -/
structure CBlock where
  btype : String
  content : String
deriving DecidableEq

/-- Whitespace normalisation used by `find_duplicates`:
`' '.join(block['content'].split())`. -/
def normSpace (s : String) : String := joinSpace (pyTokens s)

/-- A duplicate report entry produced by `find_duplicates`: content preview,
block type, the positions of all blocks with this normalized text, and the
occurrence count at detection time. -/
structure DupEntry where
  content : String
  dtype : String
  positions : List Nat
  count : Nat
deriving DecidableEq

/-- The `positions` list comprehension of `find_duplicates`: indices of all
blocks whose normalized content equals `normalized`. -/
def positionsOf (blocks : List CBlock) (normalized : String) : List Nat :=
  (blocks.enum.filter fun p => normSpace p.2.content = normalized).map (·.1)

/-- The main loop of `find_duplicates`: `seen` is the multiset of normalized
texts of already-visited significant blocks (the keys, with multiplicity, of
the Python `seen_content` map). -/
def findDupGo (allBlocks : List CBlock) : List CBlock → List String → List DupEntry
  | [], _ => []
  | b :: rest, seen =>
    if 50 < (normSpace b.content).length then
      (if normSpace b.content ∈ seen then
        [{ content := (normSpace b.content).take 100
           dtype := b.btype
           positions := positionsOf allBlocks (normSpace b.content)
           count := seen.count (normSpace b.content) + 1 }]
      else []) ++ findDupGo allBlocks rest (seen ++ [normSpace b.content])
    else findDupGo allBlocks rest seen

/-- The final dedup-by-positions pass of `find_duplicates`: keep the first
entry for each distinct `positions` key. -/
def uniqueByPositions : List DupEntry → List (List Nat) → List DupEntry
  | [], _ => []
  | d :: rest, keys =>
    if d.positions ∈ keys then uniqueByPositions rest keys
    else d :: uniqueByPositions rest (keys ++ [d.positions])

/-- `verify_deduplication.find_duplicates`. -/
def find_duplicates (content_blocks : List CBlock) : List DupEntry :=
  uniqueByPositions (findDupGo content_blocks content_blocks []) []

/-- The pass/fail decision of `verify_deduplication.verify_chapter`, as a
function of the chapter-header count (`check_duplicate_headers`) and the
extracted content blocks: more than one header fails; otherwise an empty
block list passes; otherwise the result is the absence of duplicates. -/
def verify_chapter_decision (header_count : Nat) (content_blocks : List CBlock) :
    Bool :=
  if 1 < header_count then false
  else if content_blocks.isEmpty then true
  else (find_duplicates content_blocks).isEmpty

theorem mem_uniqueByPositions (l : List DupEntry) :
    ∀ (keys : List (List Nat)) (e : DupEntry),
      e ∈ uniqueByPositions l keys → e ∈ l := by
  induction l with
  | nil => intro keys e h; simp [uniqueByPositions] at h
  | cons d rest ih =>
    intro keys e h
    by_cases hk : d.positions ∈ keys
    · exact List.mem_cons_of_mem _ (ih keys e (by simpa [uniqueByPositions, hk] using h))
    · rcases (by simpa [uniqueByPositions, hk] using h :
        e = d ∨ e ∈ uniqueByPositions rest (keys ++ [d.positions])) with rfl | h'
      · exact List.mem_cons_self _ _
      · exact List.mem_cons_of_mem _ (ih _ _ h')

theorem uniqueByPositions_ne_nil (l : List DupEntry) (h : l ≠ []) :
    uniqueByPositions l [] ≠ [] := by
  cases l with
  | nil => exact absurd rfl h
  | cons d rest => simp [uniqueByPositions]

theorem findDupGo_count_ge_two (allBlocks : List CBlock) :
    ∀ (l : List CBlock) (seen : List String) (e : DupEntry),
      e ∈ findDupGo allBlocks l seen → 2 ≤ e.count := by
  intro l
  induction l with
  | nil => intro seen e h; simp [findDupGo] at h
  | cons b rest ih =>
    intro seen e h
    by_cases h50 : 50 < (normSpace b.content).length
    · by_cases hseen : normSpace b.content ∈ seen
      · simp only [findDupGo, h50, if_true, hseen, List.mem_append] at h
        rcases h with h | h
        · have hpos : 0 < seen.count (normSpace b.content) :=
            List.count_pos_iff.mpr hseen
          simp only [List.mem_singleton] at h
          subst h
          simp only []
          omega
        · exact ih _ e h
      · simp only [findDupGo, h50, if_true, hseen, if_false, List.nil_append] at h
        exact ih _ e h
    · simp only [findDupGo, h50, if_false] at h
      exact ih _ e h

theorem findDupGo_ne_nil (allBlocks : List CBlock) :
    ∀ (l : List CBlock) (seen : List String) (n : String),
      ((n ∈ seen ∧ n ∈ l.map fun b => normSpace b.content) ∨
        (50 < n.length ∧ 2 ≤ (l.map fun b => normSpace b.content).count n)) →
      (∀ s ∈ seen, 50 < s.length) →
      findDupGo allBlocks l seen ≠ [] := by
  intro l
  induction l with
  | nil =>
    intro seen n h _
    rcases h with ⟨_, h⟩ | ⟨_, h⟩ <;> simp at h
  | cons b rest ih =>
    intro seen n h hseenlen
    by_cases h50 : 50 < (normSpace b.content).length
    · by_cases hseen : normSpace b.content ∈ seen
      · simp [findDupGo, h50, hseen]
      · have hrec : findDupGo allBlocks rest (seen ++ [normSpace b.content]) ≠ [] := by
          refine ih (seen ++ [normSpace b.content]) n ?_ ?_
          · rcases h with ⟨hn_seen, hn_mem⟩ | ⟨hlen, hcount⟩
            · rw [List.map_cons] at hn_mem
              rcases List.mem_cons.mp hn_mem with heq | hmem
              · exact absurd (heq ▸ hn_seen) hseen
              · exact Or.inl ⟨List.mem_append_left _ hn_seen, hmem⟩
            · by_cases heq : normSpace b.content = n
              · left
                refine ⟨List.mem_append_right _ (by simp [heq]), ?_⟩
                have hc : 1 ≤ (rest.map fun b => normSpace b.content).count n := by
                  rw [List.map_cons, List.count_cons] at hcount
                  simp only [beq_iff_eq, heq, if_true] at hcount
                  omega
                exact List.count_pos_iff.mp (by omega)
              · right
                refine ⟨hlen, ?_⟩
                rw [List.map_cons, List.count_cons] at hcount
                simp only [beq_iff_eq, heq, if_false] at hcount
                omega
          · intro s hs
            rcases List.mem_append.mp hs with hs | hs
            · exact hseenlen s hs
            · simp only [List.mem_singleton] at hs; subst hs; exact h50
        intro hcontr
        apply hrec
        simpa [findDupGo, h50, hseen] using hcontr
    · have hrec : findDupGo allBlocks rest seen ≠ [] := by
        refine ih seen n ?_ hseenlen
        rcases h with ⟨hn_seen, hn_mem⟩ | ⟨hlen, hcount⟩
        · rw [List.map_cons] at hn_mem
          rcases List.mem_cons.mp hn_mem with heq | hmem
          · exact absurd (heq ▸ hn_seen)
              (fun hmem' => h50 (heq ▸ hseenlen n (heq ▸ hn_seen)))
          · exact Or.inl ⟨hn_seen, hmem⟩
        · by_cases heq : normSpace b.content = n
          · exact absurd (heq ▸ hlen) h50
          · right
            refine ⟨hlen, ?_⟩
            rw [List.map_cons, List.count_cons] at hcount
            simp only [beq_iff_eq, heq, if_false] at hcount
            omega
      intro hcontr
      apply hrec
      simpa [findDupGo, h50] using hcontr

theorem findDupGo_nil_of_nodup (allBlocks : List CBlock) :
    ∀ (l : List CBlock) (seen : List String),
      (l.map fun b => normSpace b.content).Nodup →
      (∀ n ∈ l.map fun b => normSpace b.content, n ∉ seen) →
      findDupGo allBlocks l seen = [] := by
  intro l
  induction l with
  | nil => intro seen _ _; simp [findDupGo]
  | cons b rest ih =>
    intro seen hnodup hdisj
    have hmb : normSpace b.content ∉ rest.map fun b => normSpace b.content := by
      have := hnodup
      simp only [List.map_cons, List.nodup_cons] at this
      exact this.1
    have hnodup' : (rest.map fun b => normSpace b.content).Nodup := by
      have := hnodup
      simp only [List.map_cons, List.nodup_cons] at this
      exact this.2
    have hb_seen : normSpace b.content ∉ seen :=
      hdisj _ (by simp)
    by_cases h50 : 50 < (normSpace b.content).length
    · have hrec : findDupGo allBlocks rest (seen ++ [normSpace b.content]) = [] := by
        apply ih _ hnodup'
        intro n hn hmem
        rcases List.mem_append.mp hmem with hs | hs
        · exact hdisj n (by simp [hn]) hs
        · simp only [List.mem_singleton] at hs
          exact hmb (hs ▸ hn)
      simp [findDupGo, h50, hb_seen, hrec]
    · have hrec : findDupGo allBlocks rest seen = [] := by
        apply ih _ hnodup'
        intro n hn
        exact hdisj n (by simp [hn])
      simp [findDupGo, h50, hrec]

/-! ### Claims C5 and C8: the duplication detector -/

/-- C8: with pairwise-distinct whitespace-normalized block texts the detector
reports no duplicates; and whenever some normalized text longer than the
significance threshold (50) occurs at two different indices, at least one
duplicate entry is reported, with an occurrence count of at least 2. -/
theorem C8_find_duplicates_distinct_and_repeat (blocks : List CBlock) :
    ((blocks.map fun b => normSpace b.content).Nodup →
      find_duplicates blocks = []) ∧
    (∀ n : String, 50 < n.length →
      2 ≤ (blocks.map fun b => normSpace b.content).count n →
      ∃ e ∈ find_duplicates blocks, 2 ≤ e.count) := by
  constructor
  · intro hnodup
    unfold find_duplicates
    rw [findDupGo_nil_of_nodup blocks blocks [] hnodup (by simp)]
    rfl
  · intro n hlen hcount
    have hne : findDupGo blocks blocks [] ≠ [] :=
      findDupGo_ne_nil blocks blocks [] n (Or.inr ⟨hlen, hcount⟩) (by simp)
    have hne' : find_duplicates blocks ≠ [] :=
      uniqueByPositions_ne_nil _ hne
    rcases List.exists_mem_of_ne_nil _ hne' with ⟨e, he⟩
    exact ⟨e, he, findDupGo_count_ge_two blocks blocks [] e
      (mem_uniqueByPositions _ _ _ he)⟩

/-- Witness for C8: a unit with two distinct short blocks yields no
duplicates, and a unit repeating one 60-character block yields a duplicate
entry with count at least 2. -/
theorem C8_find_duplicates_distinct_and_repeat_witness :
    (([⟨"paragraph", "one two"⟩, ⟨"paragraph", "three"⟩] : List CBlock).map
        fun b => normSpace b.content).Nodup ∧
    find_duplicates [⟨"paragraph", "one two"⟩, ⟨"paragraph", "three"⟩] = [] ∧
    50 < ("aaaaaaaaaaaaaaaaaaaaaaaaaaaaaaaaaaaaaaaaaaaaaaaaaaaaaaaaaaaa" : String).length ∧
    2 ≤ (([⟨"paragraph", "aaaaaaaaaaaaaaaaaaaaaaaaaaaaaaaaaaaaaaaaaaaaaaaaaaaaaaaaaaaa"⟩,
           ⟨"heading_h2", "short"⟩,
           ⟨"paragraph", "aaaaaaaaaaaaaaaaaaaaaaaaaaaaaaaaaaaaaaaaaaaaaaaaaaaaaaaaaaaa"⟩] :
        List CBlock).map fun b => normSpace b.content).count
        "aaaaaaaaaaaaaaaaaaaaaaaaaaaaaaaaaaaaaaaaaaaaaaaaaaaaaaaaaaaa" ∧
    (∃ e ∈ find_duplicates
        [⟨"paragraph", "aaaaaaaaaaaaaaaaaaaaaaaaaaaaaaaaaaaaaaaaaaaaaaaaaaaaaaaaaaaa"⟩,
         ⟨"heading_h2", "short"⟩,
         ⟨"paragraph", "aaaaaaaaaaaaaaaaaaaaaaaaaaaaaaaaaaaaaaaaaaaaaaaaaaaaaaaaaaaa"⟩],
       2 ≤ e.count) :=
  ⟨by decide, (C8_find_duplicates_distinct_and_repeat _).1 (by decide),
    by decide, by decide,
    (C8_find_duplicates_distinct_and_repeat _).2
      "aaaaaaaaaaaaaaaaaaaaaaaaaaaaaaaaaaaaaaaaaaaaaaaaaaaaaaaaaaaa"
      (by decide) (by decide)⟩

/-- C5 counterexample: on a chapter-level unit with zero chapter-header
markers and no content blocks, `verify_chapter` reports success, although the
claim requires a zero count to fail the check. -/
theorem C5_counterexample_zero_headers_pass :
    verify_chapter_decision 0 [] = true := by decide

/-- C5 amended: `verify_chapter` fails exactly when the chapter-header marker
occurs more than once (independently of the duplicate-text rule) or a
duplicate text is detected; a zero header count only produces a warning and
the check can still pass. -/
theorem C5_chapter_header_rule (header_count : Nat) (blocks : List CBlock) :
    verify_chapter_decision header_count blocks = false ↔
      1 < header_count ∨ (blocks ≠ [] ∧ find_duplicates blocks ≠ []) := by
  unfold verify_chapter_decision
  by_cases h1 : 1 < header_count
  · simp [h1]
  · by_cases h2 : blocks.isEmpty
    · simp [h1, h2, List.isEmpty_iff.mp h2]
    · have hb : blocks ≠ [] := fun hc => h2 (by simp [hc])
      simp [h1, h2, hb, List.isEmpty_iff]

/-! ### Retry state machine (`validation_state_manager.py`) -/

/-- A validation attempt record (`record_attempt`'s `attempt` dict). Scores
are an association list mirroring the Python dict. -/
structure Attempt where
  timestamp : String
  stage : String
  attempt_number : Nat
  status : String
  scores : List (String × Option ℚ)
  issues : List String
deriving DecidableEq

/-- The persisted per-unit validation state (`_load_state`'s fresh dict,
without the chapter/page identifiers and created/updated timestamps, which no
transition reads). -/
structure UnitState where
  status : String
  stage : Option String
  attempts : List Attempt
  last_result : Option Attempt
  retry_count : Nat
  max_retries : Nat
  validation_scores : List (String × Option ℚ)
  passed_at : Option String
  failed_at : Option String
  failure_reason : Option String
  blocked_at : Option String
  block_reason : Option String
deriving DecidableEq

/-- The fresh state created by `_load_state` when no state file exists. -/
def newUnitState : UnitState :=
  { status := "new"
    stage := none
    attempts := []
    last_result := none
    retry_count := 0
    max_retries := 3
    validation_scores :=
      [("text_coverage", none), ("html_structure", none), ("visual_similarity", none)]
    passed_at := none
    failed_at := none
    failure_reason := none
    blocked_at := none
    block_reason := none }

/-- `ValidationStateManager.can_retry`: retry is allowed while
`retry_count < max_retries`; the unit's status is not consulted. -/
def can_retry (s : UnitState) : Bool := s.retry_count < s.max_retries

/-- `ValidationStateManager.increment_retry`. -/
def increment_retry (s : UnitState) : UnitState :=
  { s with retry_count := s.retry_count + 1 }

/-- Python dict assignment `d[k] = v` on an association list: overwrite the
existing binding or append a new one. -/
def setScore (vs : List (String × Option ℚ)) (k : String) (v : Option ℚ) :
    List (String × Option ℚ) :=
  if vs.any fun p => p.1 = k then
    vs.map fun p => if p.1 = k then (k, v) else p
  else vs ++ [(k, v)]

/-- `ValidationStateManager.record_attempt`: append the attempt, remember
stage and last result, and overwrite each score that is present (non-`None`)
in the new scores. The status field is not modified. -/
def record_attempt (s : UnitState) (now stage status : String)
    (scores : List (String × Option ℚ)) (issues : List String) : UnitState :=
  let attempt : Attempt :=
    { timestamp := now
      stage := stage
      attempt_number := s.retry_count
      status := status
      scores := scores
      issues := issues }
  { s with
      attempts := s.attempts ++ [attempt]
      stage := some stage
      last_result := some attempt
      validation_scores :=
        scores.foldl
          (fun acc p => if p.2 ≠ none then setScore acc p.1 p.2 else acc)
          s.validation_scores }

/-- `ValidationStateManager.mark_passed`. -/
def mark_passed (s : UnitState) (stage now : String) : UnitState :=
  { s with status := "passed", stage := some stage, passed_at := some now }

/-- `ValidationStateManager.mark_failed`. -/
def mark_failed (s : UnitState) (stage reason now : String) : UnitState :=
  { s with
      status := "failed"
      stage := some stage
      failed_at := some now
      failure_reason := some reason }

/-- `ValidationStateManager.mark_blocked`. -/
def mark_blocked (s : UnitState) (stage reason now : String) : UnitState :=
  { s with
      status := "blocked"
      stage := some stage
      blocked_at := some now
      block_reason := some reason }

/-- Modelled from the spec: the retry-loop driver that calls the state
manager is not among the sources (only the manager's primitives are). Per
section 4.4 of the spec, every attempt is recorded; if `retry_count` would
reach `max_retries` (that is, the increment the caller performs before the
next regeneration would exhaust the budget) and the attempt still failed, the
unit transitions to Blocked with a recorded reason — so three consecutive
failures under `max_retries = 3` block the unit and no fourth attempt is
recorded; otherwise the unit stays Failed and `retry_count` is incremented
for the next attempt. The primitives `record_attempt`, `can_retry`,
`increment_retry`, `mark_failed` and `mark_blocked` are the source's. -/
def drive_failed_attempt (s : UnitState) (now stage reason : String)
    (scores : List (String × Option ℚ)) (issues : List String) : UnitState :=
  let s1 := record_attempt s now stage "failed" scores issues
  if can_retry (increment_retry s1) then
    increment_retry (mark_failed s1 stage reason now)
  else mark_blocked s1 stage reason now

/-! ### Claims C6 and C7: the retry state machine -/

/-- C6: when `retry_count` would reach `max_retries` (the increment performed
for the next attempt would exhaust the budget) and the recorded attempt still
failed, the unit transitions to Blocked with the reason recorded, instead of
remaining Failed. -/
theorem C6_exhausted_failed_attempt_blocks (s : UnitState)
    (now stage reason : String) (scores : List (String × Option ℚ))
    (issues : List String) (h : s.max_retries ≤ s.retry_count + 1) :
    (drive_failed_attempt s now stage reason scores issues).status = "blocked" ∧
    (drive_failed_attempt s now stage reason scores issues).block_reason
      = some reason ∧
    (drive_failed_attempt s now stage reason scores issues).status ≠ "failed" := by
  have hc : can_retry
      (increment_retry (record_attempt s now stage "failed" scores issues))
      = false := by
    simp only [can_retry, increment_retry, record_attempt,
      decide_eq_false_iff_not, not_lt]
    exact h
  refine ⟨?_, ?_, ?_⟩ <;>
    simp [drive_failed_attempt, hc, mark_blocked]

/-- Witness for C6: from a fresh unit with `max_retries = 3`, three
consecutive failed drives record exactly three attempts and leave the unit
Blocked; the theorem is applied to the third failure, whose increment would
reach the budget (the first two leave the unit Failed with the retry count
incremented). -/
theorem C6_exhausted_failed_attempt_blocks_witness :
    (drive_failed_attempt (drive_failed_attempt newUnitState
        "t1" "validation" "coverage too low" [] [])
        "t2" "validation" "coverage too low" [] []).max_retries ≤
      (drive_failed_attempt (drive_failed_attempt newUnitState
        "t1" "validation" "coverage too low" [] [])
        "t2" "validation" "coverage too low" [] []).retry_count + 1 ∧
    (drive_failed_attempt (drive_failed_attempt (drive_failed_attempt
        newUnitState "t1" "validation" "coverage too low" [] [])
        "t2" "validation" "coverage too low" [] [])
        "t3" "validation" "coverage too low" [] []).status = "blocked" ∧
    (drive_failed_attempt (drive_failed_attempt (drive_failed_attempt
        newUnitState "t1" "validation" "coverage too low" [] [])
        "t2" "validation" "coverage too low" [] [])
        "t3" "validation" "coverage too low" [] []).attempts.length = 3 ∧
    (drive_failed_attempt (drive_failed_attempt newUnitState
        "t1" "validation" "coverage too low" [] [])
        "t2" "validation" "coverage too low" [] []).status = "failed" ∧
    (drive_failed_attempt (drive_failed_attempt newUnitState
        "t1" "validation" "coverage too low" [] [])
        "t2" "validation" "coverage too low" [] []).retry_count = 2 :=
  ⟨by decide,
    (C6_exhausted_failed_attempt_blocks
      (drive_failed_attempt (drive_failed_attempt newUnitState
        "t1" "validation" "coverage too low" [] [])
        "t2" "validation" "coverage too low" [] [])
      "t3" "validation" "coverage too low" [] [] (by decide)).1,
    by decide, by decide, by decide⟩

/-- C7 counterexample: `mark_passed` does set the terminal Passed status, but
`can_retry` ignores the status: a freshly passed unit with an unexhausted
retry budget still reports that it can retry, contradicting the claim that
the exposed can-retry decision is false for a Passed unit. -/
theorem C7_counterexample_passed_can_retry :
    (mark_passed newUnitState "generation" "t1").status = "passed" ∧
    can_retry (mark_passed newUnitState "generation" "t1") = true := by
  decide

/-- C7 amended: a Passed attempt at any retry count puts the unit in status
Passed, but the exposed can-retry decision depends only on the retry budget:
it is unchanged by `mark_passed`, and holds exactly when
`retry_count < max_retries`, whatever the status. -/
theorem C7_mark_passed_and_can_retry (s : UnitState) (stage now : String) :
    (mark_passed s stage now).status = "passed" ∧
    can_retry (mark_passed s stage now) = can_retry s ∧
    (can_retry (mark_passed s stage now) = true ↔
      s.retry_count < s.max_retries) := by
  refine ⟨rfl, rfl, ?_⟩
  simp [can_retry, mark_passed]

/-! ### Structure classifier (`semantic_html_generator.py`) -/

/-- A text span as consumed by `group_text_spans_into_elements`: raw text plus
font size, weight and slant. -/
structure Span where
  text : String
  size : ℚ
  bold : Bool
  italic : Bool
deriving DecidableEq

/-- An entry of the paragraph accumulator `current_group`. -/
structure GSpan where
  text : String
  italic : Bool
  bold : Bool
deriving DecidableEq

/-- An output element: a heading with its level, or a paragraph with its
combined text and italic flag. -/
inductive Element where
  | heading (level : Nat) (text : String)
  | paragraph (text : String) (italic : Bool)
deriving DecidableEq

/-- Python `str.strip()`: remove leading and trailing whitespace. -/
def pyStrip (s : String) : String :=
  String.mk
    (((s.data.dropWhile Char.isWhitespace).reverse.dropWhile Char.isWhitespace).reverse)

/-- Python `str.isupper` (restricted to the cased-character behaviour): at
least one alphabetic character and no lowercase character. -/
def pyIsUpper (s : String) : Bool :=
  s.data.any (fun c => c.isAlpha) && s.data.all fun c => !c.isLower

/-- `semantic_html_generator.flush_group`: combine accumulated spans into one
paragraph element, joining texts with spaces and or-ing the italic flags. -/
def flush_group (group : List GSpan) : Element :=
  .paragraph (joinSpace (group.map fun g => g.text)) (group.any fun g => g.italic)

/-- The loop state of `group_text_spans_into_elements`: emitted elements, the
paragraph accumulator, the heading-part accumulator, and the level of the
heading being accumulated. -/
structure GState where
  elements : List Element
  group : List GSpan
  headingParts : List String
  headingLevel : Option Nat
deriving DecidableEq

/-- The initial loop state. -/
def gStart : GState := ⟨[], [], [], none⟩

/-- The repeated "flush remaining heading parts" block of
`group_text_spans_into_elements`: when parts are pending, emit them as one
heading at the accumulated level and clear both accumulator and level. (When
parts are pending the level is never `none`; `getD 0` renders Python's
`current_heading_level` access.) -/
def flushHeadingPending (st : GState) : GState :=
  if st.headingParts ≠ [] then
    { st with
        elements := st.elements
          ++ [.heading (st.headingLevel.getD 0) (joinSpace st.headingParts)]
        headingParts := []
        headingLevel := none }
  else st

/-- The "flush it first" block for the paragraph accumulator
(`elif current_group:`). -/
def flushGroupPending (st : GState) : GState :=
  if st.group ≠ [] then
    { st with elements := st.elements ++ [flush_group st.group], group := [] }
  else st

/-- The "different heading level than what we're accumulating" block: emit the
pending parts at the previous level `l` and clear the parts, leaving the
recorded level untouched (as the Python does). -/
def flushStaleHeading (l : Nat) (st : GState) : GState :=
  if st.headingParts ≠ [] then
    { st with
        elements := st.elements ++ [.heading l (joinSpace st.headingParts)]
        headingParts := [] }
  else { st with headingParts := [] }

/-- The flush decision made on encountering a heading candidate of `level`:
a different pending level flushes the stale heading; otherwise a pending
paragraph group is flushed. -/
def headingPrelude (level : Nat) (st : GState) : GState :=
  match st.headingLevel with
  | some l => if level ≠ l then flushStaleHeading l st else flushGroupPending st
  | none => flushGroupPending st

/-- The heading level chosen for a heading candidate span. -/
def levelOf (sp : Span) : Nat :=
  if (50 : ℚ) < sp.size ∧ 1 < (pyStrip sp.text).length then 1
  else if (20 : ℚ) < sp.size ∧ sp.bold = true then 2
  else if pyIsUpper (pyStrip sp.text) && decide (2 < (pyStrip sp.text).length) then 3
  else 4

/-- Handling of a heading-candidate span: after the prelude flushes, levels up
to 3 accumulate into the pending parts; level 4 flushes once more and is
emitted as a heading of its own. -/
def emitHeadingCandidate (level : Nat) (t : String) (st : GState) : GState :=
  let st1 := headingPrelude level st
  if level ≤ 3 then
    { st1 with headingParts := st1.headingParts ++ [t], headingLevel := some level }
  else
    let st2 := flushHeadingPending st1
    { st2 with elements := st2.elements ++ [.heading level t] }

/-- Handling of a regular-text span: flush a pending heading, then append the
span to the paragraph accumulator. -/
def emitRegularText (sp : Span) (t : String) (st : GState) : GState :=
  let st1 := flushHeadingPending st
  { st1 with group := st1.group ++ [⟨t, sp.italic, sp.bold⟩] }

/-- One iteration of the loop in `group_text_spans_into_elements`, processing
one span. -/
def classify_step (st : GState) (sp : Span) : GState :=
  if (pyStrip sp.text) = "" then st
  else if (pyStrip sp.text).length < 2 || (pyStrip sp.text) = "●" || (pyStrip sp.text) = "○"
      || (pyStrip sp.text) = "*" then st
  else
    if (decide ((50 : ℚ) < sp.size) && decide (1 < (pyStrip sp.text).length))
        || (decide ((20 : ℚ) < sp.size) && sp.bold)
        || (sp.bold && ((pyIsUpper (pyStrip sp.text) && decide (2 < (pyStrip sp.text).length))
              || decide ((23 / 2 : ℚ) < sp.size))) then
      emitHeadingCandidate (levelOf sp) (pyStrip sp.text) st
    else
      emitRegularText sp (pyStrip sp.text) st

/-- `semantic_html_generator.group_text_spans_into_elements`: fold the loop
over the spans, then flush the remaining heading parts and the remaining
paragraph group. -/
def group_text_spans_into_elements (text_spans : List Span) : List Element :=
  let st := text_spans.foldl classify_step gStart
  let els :=
    if st.headingParts ≠ [] then
      st.elements ++ [.heading (st.headingLevel.getD 0) (joinSpace st.headingParts)]
    else st.elements
  if st.group ≠ [] then els ++ [flush_group st.group] else els

/-! ### Token accounting for the classifier (claim C4) -/

/-- The text carried by an element. -/
def elemText : Element → String
  | .heading _ t => t
  | .paragraph t _ => t

/-- All whitespace tokens of a list of elements, in order. -/
def elemsTokens (es : List Element) : List String :=
  es.flatMap fun e => pyTokens (elemText e)

/-- Whether a stripped span text survives the classifier's noise filter:
kept iff it has at least 2 characters and is not a bullet glyph (the empty
string is already excluded by the length test). -/
def keepSpan (t : String) : Bool :=
  decide (2 ≤ t.length) && !(t == "●" || t == "○" || t == "*")

/-- The whitespace tokens of the spans surviving the noise filter. -/
def keptTokens (spans : List Span) : List String :=
  ((spans.map fun sp => pyStrip sp.text).filter keepSpan).flatMap pyTokens

/-- The token multiset held by a loop state: tokens already emitted in
elements, plus the pending heading parts, plus the pending paragraph group. -/
def stateTokens (st : GState) : Multiset String :=
  (elemsTokens st.elements : Multiset String)
    + ((st.headingParts.flatMap pyTokens : List String) : Multiset String)
    + (((st.group.map fun g => g.text).flatMap pyTokens : List String) : Multiset String)

theorem elemsTokens_append (a b : List Element) :
    elemsTokens (a ++ b) = elemsTokens a ++ elemsTokens b := by
  simp [elemsTokens]

theorem elemsTokens_heading (l : Nat) (parts : List String) :
    elemsTokens [.heading l (joinSpace parts)] = parts.flatMap pyTokens := by
  simp [elemsTokens, elemText, pyTokens_joinSpace]

theorem elemsTokens_flush_group (g : List GSpan) :
    elemsTokens [flush_group g] = (g.map fun x => x.text).flatMap pyTokens := by
  simp [elemsTokens, flush_group, elemText, pyTokens_joinSpace]

theorem stateTokens_flushHeadingPending (st : GState) :
    stateTokens (flushHeadingPending st) = stateTokens st := by
  unfold flushHeadingPending
  split_ifs with h
  · simp only [stateTokens, elemsTokens_append, elemsTokens_heading,
      List.flatMap_nil, ← Multiset.coe_add]
    abel
  · rfl

theorem stateTokens_flushGroupPending (st : GState) :
    stateTokens (flushGroupPending st) = stateTokens st := by
  unfold flushGroupPending
  split_ifs with h
  · simp only [stateTokens, elemsTokens_append, elemsTokens_flush_group,
      List.map_nil, List.flatMap_nil, ← Multiset.coe_add]
    abel
  · rfl

theorem stateTokens_flushStaleHeading (l : Nat) (st : GState) :
    stateTokens (flushStaleHeading l st) = stateTokens st := by
  unfold flushStaleHeading
  split_ifs with h
  · simp only [stateTokens, elemsTokens_append, elemsTokens_heading,
      List.flatMap_nil, ← Multiset.coe_add]
    abel
  · simp only [ne_eq, not_not] at h
    simp [stateTokens, h]

theorem stateTokens_headingPrelude (level : Nat) (st : GState) :
    stateTokens (headingPrelude level st) = stateTokens st := by
  cases hL : st.headingLevel with
  | none =>
    simp only [headingPrelude, hL]
    exact stateTokens_flushGroupPending st
  | some l =>
    simp only [headingPrelude, hL]
    split_ifs with h
    · exact stateTokens_flushStaleHeading l st
    · exact stateTokens_flushGroupPending st

theorem stateTokens_append_to_parts (lv : Nat) (t : String) (s : GState) :
    stateTokens
        { s with headingParts := s.headingParts ++ [t], headingLevel := some lv }
      = stateTokens s + (pyTokens t : Multiset String) := by
  simp only [stateTokens, List.flatMap_append, List.flatMap_cons,
    List.flatMap_nil, List.append_nil, ← Multiset.coe_add]
  abel

theorem stateTokens_append_heading_elem (lv : Nat) (t : String) (s : GState) :
    stateTokens { s with elements := s.elements ++ [.heading lv t] }
      = stateTokens s + (pyTokens t : Multiset String) := by
  simp only [stateTokens, elemsTokens_append]
  have h : elemsTokens [.heading lv t] = pyTokens t := by
    simp [elemsTokens, elemText]
  simp only [h, ← Multiset.coe_add]
  abel

theorem stateTokens_append_to_group (t : String) (i b : Bool) (s : GState) :
    stateTokens { s with group := s.group ++ [(⟨t, i, b⟩ : GSpan)] }
      = stateTokens s + (pyTokens t : Multiset String) := by
  simp only [stateTokens, List.map_append, List.map_cons, List.map_nil,
    List.flatMap_append, List.flatMap_cons, List.flatMap_nil, List.append_nil,
    ← Multiset.coe_add]
  abel

theorem stateTokens_emitHeadingCandidate (level : Nat) (t : String) (st : GState) :
    stateTokens (emitHeadingCandidate level t st) =
      stateTokens st + (pyTokens t : Multiset String) := by
  unfold emitHeadingCandidate
  split_ifs with h
  · rw [stateTokens_append_to_parts, stateTokens_headingPrelude]
  · rw [stateTokens_append_heading_elem, stateTokens_flushHeadingPending,
      stateTokens_headingPrelude]

theorem stateTokens_emitRegularText (sp : Span) (t : String) (st : GState) :
    stateTokens (emitRegularText sp t st) =
      stateTokens st + (pyTokens t : Multiset String) := by
  unfold emitRegularText
  rw [stateTokens_append_to_group, stateTokens_flushHeadingPending]

theorem stateTokens_classify_step (sp : Span) (st : GState) :
    stateTokens (classify_step st sp) =
      stateTokens st +
        (if keepSpan (pyStrip sp.text) then
          ((pyTokens (pyStrip sp.text) : List String) : Multiset String) else 0) := by
  by_cases h1 : pyStrip sp.text = ""
  · have hk : keepSpan (pyStrip sp.text) = false := by rw [h1]; decide
    simp [classify_step, h1, hk]
    exact fun _ => by decide
  · by_cases h2 : (decide ((pyStrip sp.text).length < 2)
        || decide (pyStrip sp.text = "●") || decide (pyStrip sp.text = "○")
        || decide (pyStrip sp.text = "*")) = true
    · have hk : keepSpan (pyStrip sp.text) = false := by
        simp only [Bool.or_eq_true, decide_eq_true_eq] at h2
        rcases h2 with ((hlen | hb) | hb) | hb
        · have hd : decide (2 ≤ (pyStrip sp.text).length) = false :=
            decide_eq_false (by omega)
          simp [keepSpan, hd]
        · rw [hb]; decide
        · rw [hb]; decide
        · rw [hb]; decide
      simp [classify_step, h1, h2, hk]
    · have hk : keepSpan (pyStrip sp.text) = true := by
        simp only [Bool.or_eq_true, decide_eq_true_eq, not_or] at h2
        obtain ⟨⟨⟨hlen, hb1⟩, hb2⟩, hb3⟩ := h2
        simp only [keepSpan, Bool.and_eq_true, decide_eq_true_eq,
          Bool.not_eq_true', Bool.or_eq_false_iff, beq_eq_false_iff_ne, ne_eq]
        exact ⟨by omega, ⟨hb1, hb2⟩, hb3⟩
      by_cases h3 : ((decide ((50 : ℚ) < sp.size) && decide (1 < (pyStrip sp.text).length))
          || (decide ((20 : ℚ) < sp.size) && sp.bold)
          || (sp.bold && ((pyIsUpper (pyStrip sp.text)
                && decide (2 < (pyStrip sp.text).length))
              || decide ((23 / 2 : ℚ) < sp.size)))) = true
      · rw [hk, if_pos rfl]
        simp only [classify_step, h1, h2, h3, decide_eq_true_eq,
          Bool.false_eq_true, if_false, if_true]
        rw [stateTokens_emitHeadingCandidate]
      · rw [hk, if_pos rfl]
        simp only [classify_step, h1, h2, h3, decide_eq_true_eq,
          Bool.false_eq_true, if_false, if_true]
        rw [stateTokens_emitRegularText]

theorem stateTokens_foldl (spans : List Span) :
    ∀ st : GState,
      stateTokens (spans.foldl classify_step st) =
        stateTokens st + (keptTokens spans : Multiset String) := by
  induction spans with
  | nil => intro st; simp [keptTokens]
  | cons sp rest ih =>
    intro st
    rw [List.foldl_cons, ih, stateTokens_classify_step]
    by_cases hk : keepSpan (pyStrip sp.text) = true
    · simp only [keptTokens, List.map_cons, List.filter_cons, hk, if_true,
        List.flatMap_cons, ← Multiset.coe_add]
      abel
    · simp only [Bool.not_eq_true] at hk
      simp only [keptTokens, List.map_cons, List.filter_cons, hk,
        Bool.false_eq_true, if_false, hk]
      simp [hk]

theorem groupFlushes_headingParts (st : GState) :
    (flushGroupPending (flushHeadingPending st)).headingParts = [] := by
  unfold flushHeadingPending flushGroupPending
  split_ifs <;> simp_all

theorem groupFlushes_group (st : GState) :
    (flushGroupPending (flushHeadingPending st)).group = [] := by
  unfold flushHeadingPending flushGroupPending
  split_ifs <;> simp_all

theorem group_text_spans_eq_flushes (spans : List Span) :
    group_text_spans_into_elements spans =
      (flushGroupPending
        (flushHeadingPending (spans.foldl classify_step gStart))).elements := by
  unfold group_text_spans_into_elements flushHeadingPending flushGroupPending
  generalize spans.foldl classify_step gStart = st
  by_cases hp : st.headingParts ≠ [] <;> by_cases hg : st.group ≠ [] <;>
    simp [hp, hg]

/-- C4 amended, main theorem: the multiset of whitespace tokens of the emitted
elements equals the token multiset of exactly those input spans surviving the
noise filter (stripped text of length at least 2 and not a bullet glyph). -/
theorem C4_classifier_token_multiset (spans : List Span) :
    (elemsTokens (group_text_spans_into_elements spans) : Multiset String) =
      (keptTokens spans : Multiset String) := by
  rw [group_text_spans_eq_flushes]
  have hs : stateTokens
      (flushGroupPending (flushHeadingPending (spans.foldl classify_step gStart)))
      = (keptTokens spans : Multiset String) := by
    rw [stateTokens_flushGroupPending, stateTokens_flushHeadingPending,
      stateTokens_foldl]
    simp [stateTokens, gStart, elemsTokens]
  rw [← hs]
  rw [stateTokens, groupFlushes_headingParts, groupFlushes_group]
  simp

/-- C4 counterexample: the single span "a" — an ordinary one-letter word, not
a decorative glyph and not a bullet marker — is silently dropped by the noise
filter: the classifier emits no element at all, so the output token multiset
loses the token "a". -/
theorem C4_counterexample_single_letter_dropped :
    group_text_spans_into_elements [⟨"a", 12, false, false⟩] = [] ∧
    pyTokens (pyStrip "a") = ["a"] ∧
    ¬ (elemsTokens (group_text_spans_into_elements [⟨"a", 12, false, false⟩])
        : Multiset String) = (pyTokens (pyStrip "a") : Multiset String) := by
  have h0 : group_text_spans_into_elements [⟨"a", 12, false, false⟩] = [] := by
    decide
  have h1 : pyTokens (pyStrip "a") = ["a"] := by decide
  refine ⟨h0, h1, ?_⟩
  rw [h0, h1]
  intro h
  simp [elemsTokens] at h

/-! ### Claim C9: degradation on low font-size variance -/

/-- Whether an element is a body-text (paragraph) element. -/
def isParagraphElem : Element → Bool
  | .paragraph _ _ => true
  | .heading _ _ => false

theorem classify_step_flat (sp : Span) (st : GState)
    (hb : sp.bold = false) (hs : sp.size ≤ 50)
    (hP : (∀ e ∈ st.elements, isParagraphElem e = true) ∧ st.headingParts = []) :
    (∀ e ∈ (classify_step st sp).elements, isParagraphElem e = true) ∧
      (classify_step st sp).headingParts = [] := by
  obtain ⟨hPe, hPp⟩ := hP
  have hcand : ((decide ((50 : ℚ) < sp.size) && decide (1 < (pyStrip sp.text).length))
      || (decide ((20 : ℚ) < sp.size) && sp.bold)
      || (sp.bold && ((pyIsUpper (pyStrip sp.text) && decide (2 < (pyStrip sp.text).length))
            || decide ((23 / 2 : ℚ) < sp.size)))) = false := by
    have h50 : decide ((50 : ℚ) < sp.size) = false := decide_eq_false (not_lt.mpr hs)
    simp [h50, hb]
  unfold classify_step
  split_ifs with h1 h2 h3
  · exact ⟨hPe, hPp⟩
  · exact ⟨hPe, hPp⟩
  · exact absurd h3 (by simp [hcand])
  · unfold emitRegularText flushHeadingPending
    simp only [hPp, ne_eq, not_true_eq_false, if_false]
    exact ⟨hPe, trivial⟩

theorem foldl_flat (spans : List Span)
    (h : ∀ sp ∈ spans, sp.bold = false ∧ sp.size ≤ 50) :
    ∀ st : GState,
      ((∀ e ∈ st.elements, isParagraphElem e = true) ∧ st.headingParts = []) →
      (∀ e ∈ (spans.foldl classify_step st).elements, isParagraphElem e = true) ∧
        (spans.foldl classify_step st).headingParts = [] := by
  induction spans with
  | nil => intro st hP; simpa using hP
  | cons sp rest ih =>
    intro st hP
    rw [List.foldl_cons]
    exact ih (fun x hx => h x (List.mem_cons_of_mem _ hx)) _
      (classify_step_flat sp st (h sp (List.mem_cons_self _ _)).1
        (h sp (List.mem_cons_self _ _)).2 hP)

/-- C9 amended, main theorem: the classifier's thresholds are absolute, not
variance-based; whenever no span meets a heading-candidate condition (here:
all spans non-bold with size at most 50 — which covers any number of distinct
font sizes, including fewer than 2), every emitted element is body text. -/
theorem C9_flat_classification (spans : List Span)
    (h : ∀ sp ∈ spans, sp.bold = false ∧ sp.size ≤ 50) :
    ∀ e ∈ group_text_spans_into_elements spans, isParagraphElem e = true := by
  rw [group_text_spans_eq_flushes]
  obtain ⟨hE, hP⟩ := foldl_flat spans h gStart (by simp [gStart])
  generalize hst : spans.foldl classify_step gStart = st at hE hP
  have hflush : flushHeadingPending st = st := by
    unfold flushHeadingPending
    simp [hP]
  rw [hflush]
  unfold flushGroupPending
  split_ifs with hg
  · intro e he
    rcases List.mem_append.mp he with he | he
    · exact hE e he
    · simp only [List.mem_singleton] at he
      subst he
      simp [flush_group, isParagraphElem]
  · exact hE

/-- Witness for the amended C9: a unit with a single non-bold body-size span
is classified entirely as paragraphs. -/
theorem C9_flat_classification_witness :
    (∀ sp ∈ ([⟨"hello world", 12, false, false⟩] : List Span),
      sp.bold = false ∧ sp.size ≤ 50) ∧
    (∀ e ∈ group_text_spans_into_elements [⟨"hello world", 12, false, false⟩],
      isParagraphElem e = true) :=
  ⟨by decide, C9_flat_classification _ (by decide)⟩

/-- C9 counterexample: a unit with exactly one distinct font size (a single
60pt bold span) is not degraded to body text: the classifier emits a level-1
heading, and no low-confidence warning exists anywhere in its output. -/
theorem C9_counterexample_single_size_heading :
    (([⟨"TITLE", 60, true, false⟩] : List Span).map fun sp => sp.size).dedup.length
        = 1 ∧
    group_text_spans_into_elements [⟨"TITLE", 60, true, false⟩]
        = [.heading 1 "TITLE"] ∧
    ¬ (∀ e ∈ group_text_spans_into_elements [⟨"TITLE", 60, true, false⟩],
        isParagraphElem e = true) := by
  have h0 : group_text_spans_into_elements [⟨"TITLE", 60, true, false⟩]
      = [.heading 1 "TITLE"] := by decide
  refine ⟨by decide, h0, ?_⟩
  intro h
  have := h (.heading 1 "TITLE") (by rw [h0]; exact List.mem_singleton.mpr rfl)
  simp [isParagraphElem] at this

end Calypso
